import Mathlib

/-!
Verification of the batch mask-derivation and attribute-application engine of
`src/filemanager/chattr.c` (Midnight Commander's chattr command).

The C code is shallowly embedded as executable Lean definitions:

* attribute words (`unsigned long` restricted to the 32 ext2 attribute bits,
  as fixed by the spec's `FlagsWord`) are `Nat` with an explicit `MASK32`
  where the C code uses `~0`;
* the static `check_attr[]` table is the list `check_attr` of
  (flag bit, letter) pairs, in source order;
* the mask building done in `chattr_cmd` for the buttons
  B_SETALL / B_MARKED / B_SETMRK / B_CLRMRK is `chattr_cmd_mask`;
* `do_chattr`'s flags transformation is `chattr_transform`;
* `try_chattr`'s retry loop, `do_chattr` and `chattr_apply_mask` become
  fuel-bounded state-passing functions over an explicit panel (list of
  files), with the OS boundary (`fgetflags` / `fsetflags` outcomes) and the
  user's prompt decisions supplied as oracles, and the externally visible
  I/O recorded in an event trace.
-/

/-- All 32 attribute bits set: the value of C's `~0` restricted to the
32-bit attribute word (the spec's `FlagsWord` is u32; only these bits are
ever populated by `fgetflags`). Initial value of `and_mask` in
`chattr_cmd`. -/
def MASK32 : Nat := 2 ^ 32 - 1

/-- One row of the `check_attr[]` table together with its dialog state:
`flags` is the attribute bit, `modifiable` is `chattr_is_modifiable`
(`(flags & EXT2_FL_USER_MODIFIABLE) != 0`), `selected` is the star toggle,
`state` is the checkbox widget's on/off state (`CHECK (...)->state`). -/
structure AttrState where
  flags : Nat
  modifiable : Bool
  selected : Bool
  state : Bool
deriving DecidableEq, Repr

/-- The four mask-building buttons of `chattr_cmd`:
B_SETALL, B_MARKED, B_SETMRK, B_CLRMRK. -/
inductive ChattrBtn where
  | setall
  | marked
  | setmrk
  | clrmrk
deriving DecidableEq, Repr

/-- Loop body of the `B_SETALL` / `B_MARKED` case of `chattr_cmd`
(`is_setall` records whether `result == B_SETALL`):
if `chattr_is_modifiable (i) && (check_attr[i].selected || result == B_SETALL)`
then a set checkbox adds the bit to `or_mask`, a clear checkbox removes the
bit from `and_mask`.  The pair is `(and_mask, or_mask)`. -/
def step_setall_marked (is_setall : Bool) (p : Nat × Nat) (a : AttrState) : Nat × Nat :=
  if a.modifiable && (a.selected || is_setall) then
    if a.state then (p.1, p.2 ||| a.flags) else (p.1 &&& (MASK32 ^^^ a.flags), p.2)
  else p

/-- Loop body of the `B_SETMRK` case: selected modifiable attributes are
added to `or_mask`. -/
def step_setmrk (p : Nat × Nat) (a : AttrState) : Nat × Nat :=
  if a.modifiable && a.selected then (p.1, p.2 ||| a.flags) else p

/-- Loop body of the `B_CLRMRK` case: selected modifiable attributes are
removed from `and_mask`. -/
def step_clrmrk (p : Nat × Nat) (a : AttrState) : Nat × Nat :=
  if a.modifiable && a.selected then (p.1 &&& (MASK32 ^^^ a.flags), p.2) else p

/-- Generic form of the three per-attribute loop bodies above: `s a` tells
whether attribute `a` adds its bit to `or_mask`, `c a` whether it removes
its bit from `and_mask`.  Each concrete loop body is an instance (proved
below), which lets the mask lemmas be stated once. -/
def mask_step (s c : AttrState → Bool) (p : Nat × Nat) (a : AttrState) : Nat × Nat :=
  if s a then (p.1, p.2 ||| a.flags)
  else if c a then (p.1 &&& (MASK32 ^^^ a.flags), p.2)
  else p

/-- The mask building of `chattr_cmd`: starting from
`or_mask = 0; and_mask = ~0`, fold the per-attribute loop body of the chosen
button over the attribute table.  Returns `(and_mask, or_mask)`. -/
def chattr_cmd_mask : ChattrBtn → List AttrState → Nat × Nat
  | ChattrBtn.setall, attrs => attrs.foldl (step_setall_marked true) (MASK32, 0)
  | ChattrBtn.marked, attrs => attrs.foldl (step_setall_marked false) (MASK32, 0)
  | ChattrBtn.setmrk, attrs => attrs.foldl step_setmrk (MASK32, 0)
  | ChattrBtn.clrmrk, attrs => attrs.foldl step_clrmrk (MASK32, 0)

/-- The flags transformation of `do_chattr`: `m &= and_mask; m |= or_mask`. -/
def chattr_transform (and_mask or_mask m : Nat) : Nat :=
  (m &&& and_mask) ||| or_mask

/-- The static `check_attr[]` table of `chattr.c` (source order, all
conditionally compiled rows present): attribute flag bit and letter code. -/
def check_attr : List (Nat × Char) :=
  [ (0x00000001, 's'),  -- EXT2_SECRM_FL, Secure deletion
    (0x00000002, 'u'),  -- EXT2_UNRM_FL, Undelete
    (0x00000008, 'S'),  -- EXT2_SYNC_FL, Synchronous updates
    (0x00010000, 'D'),  -- EXT2_DIRSYNC_FL, Synchronous directory updates
    (0x00000010, 'i'),  -- EXT2_IMMUTABLE_FL, Immutable
    (0x00000020, 'a'),  -- EXT2_APPEND_FL, Append only
    (0x00000040, 'd'),  -- EXT2_NODUMP_FL, No dump
    (0x00000080, 'A'),  -- EXT2_NOATIME_FL, No update atime
    (0x00000004, 'c'),  -- EXT2_COMPR_FL, Compress
    (0x00000200, 'B'),  -- EXT2_COMPRBLK_FL, Compressed clusters
    (0x00000100, 'Z'),  -- EXT2_DIRTY_FL, Compressed dirty file
    (0x00000400, 'X'),  -- EXT2_NOCOMPR_FL, Compression raw access
    (0x00000800, 'E'),  -- EXT4_ENCRYPT_FL, Encrypted inode
    (0x00004000, 'j'),  -- EXT3_JOURNAL_DATA_FL, Journaled data
    (0x00001000, 'I'),  -- EXT2_INDEX_FL, Indexed directory
    (0x00008000, 't'),  -- EXT2_NOTAIL_FL, No tail merging
    (0x00020000, 'T'),  -- EXT2_TOPDIR_FL, Top of directory hierarchies
    (0x00080000, 'e'),  -- EXT4_EXTENTS_FL, Inode uses extents
    (0x00040000, 'h'),  -- EXT4_HUGE_FILE_FL, Huge file
    (0x00800000, 'C'),  -- FS_NOCOW_FL, No COW
    (0x40000000, 'F'),  -- EXT4_CASEFOLD_FL, Casefolded file
    (0x10000000, 'N'),  -- EXT4_INLINE_DATA_FL, Inode has inline data
    (0x20000000, 'P'),  -- EXT4_PROJINHERIT_FL, Project hierarchy
    (0x00100000, 'V') ] -- EXT4_VERITY_FL, Verity protected inode

/-- The `check_attr[]` table paired with dialog state.  Modifiability,
star-selection and checkbox state are supplied as functions of the (unique)
attribute bit: `mod` models `chattr_is_modifiable`, whose value
`(flags & EXT2_FL_USER_MODIFIABLE) != 0` depends only on the flag bit (the
constant lives in the external system header); `sel` and `chk` model the
dialog-owned per-attribute state. -/
def mkAttrs (mod sel chk : Nat → Bool) : List AttrState :=
  check_attr.map fun fc => ⟨fc.1, mod fc.1, sel fc.1, chk fc.1⟩

/-- The spec's hypothetical 3-attribute catalog with modifiable bits
{1, 2, 4}, every checkbox on (used by the SET_ALL example of §8). -/
def cat3 : List AttrState :=
  [⟨1, true, false, true⟩, ⟨2, true, false, true⟩, ⟨4, true, false, true⟩]

/-- One entry of `current_panel->dir.list`: its mark bit (`f.marked`) and
the attribute word currently stored on disk for that file (what `fgetflags`
would return).  The file's position in the list stands for its name. -/
structure FileEntry where
  marked : Bool
  flags : Nat
deriving DecidableEq, Repr

/-- Externally visible I/O of one batch run, in order: `eread i` is an
`fgetflags` call on file `i`, `ewrite i v` an `fsetflags (i, v)` attempt
(successful or not), `eprompt i` one `query_dialog` failure prompt for
file `i`. -/
inductive Event where
  | eread : Nat → Event
  | ewrite : Nat → Nat → Event
  | eprompt : Nat → Event
deriving DecidableEq, Repr

/-- The file index an event touches. -/
def Event.idx : Event → Nat
  | Event.eread i => i
  | Event.ewrite i _ => i
  | Event.eprompt i => i

/-- The four answers of `try_chattr`'s `query_dialog` prompt, in button
order: Ignore (0), Ignore all (1), Retry (2), Cancel (3 / default). -/
inductive QueryResult where
  | ignore
  | ignoreAll
  | retry
  | cancel
deriving DecidableEq, Repr

/-- Result of one `try_chattr` call: the C return value (`FALSE` = stop
remaining files), the `ignore_all` global afterwards, whether some
`fsetflags` attempt succeeded (the disk then holds the attempted value),
and the I/O events issued. -/
structure TryOut where
  ret : Bool
  ignore_all : Bool
  wrote : Bool
  events : List Event
deriving DecidableEq, Repr

/-- `try_chattr (p, m)`: `while (fsetflags (p, m) == -1 && !ignore_all)`
ask the user; Ignore returns TRUE, Ignore all sets `ignore_all` and returns
TRUE, Retry loops, Cancel returns FALSE.  `wr k` is the oracle for the
`k`-th `fsetflags` outcome of this call, `dec k` the user's `k`-th answer;
`i` is the file index, `v` the value written, `ia` the incoming
`ignore_all`.  Fuel-bounded (`none` = fuel ran out while the user kept
choosing Retry). -/
def try_chattr (wr : Nat → Bool) (dec : Nat → QueryResult) (i v : Nat) :
    Nat → Nat → Bool → Option TryOut
  | 0, _, _ => none
  | fuel + 1, k, ia =>
    if wr k then some ⟨true, ia, true, [Event.ewrite i v]⟩
    else if ia then some ⟨true, ia, false, [Event.ewrite i v]⟩
    else
      match dec k with
      | QueryResult.ignore => some ⟨true, ia, false, [Event.ewrite i v, Event.eprompt i]⟩
      | QueryResult.ignoreAll => some ⟨true, true, false, [Event.ewrite i v, Event.eprompt i]⟩
      | QueryResult.retry =>
        match try_chattr wr dec i v fuel (k + 1) ia with
        | none => none
        | some r => some ⟨r.ret, r.ignore_all, r.wrote,
            Event.ewrite i v :: Event.eprompt i :: r.events⟩
      | QueryResult.cancel => some ⟨false, ia, false, [Event.ewrite i v, Event.eprompt i]⟩

/-- Replace the entry at index `i` (identity when out of range). -/
def updateAt : List FileEntry → Nat → (FileEntry → FileEntry) → List FileEntry
  | [], _, _ => []
  | e :: l, 0, f => f e :: l
  | e :: l, n + 1, f => e :: updateAt l n f

/-- `do_file_mark (panel, i, 0)`: clear the mark bit of file `i`. -/
def unmark (l : List FileEntry) (i : Nat) : List FileEntry :=
  updateAt l i fun e => ⟨false, e.flags⟩

/-- A successful `fsetflags (i, v)`: the disk now holds `v` for file `i`. -/
def setFlags (l : List FileEntry) (i : Nat) (v : Nat) : List FileEntry :=
  updateAt l i fun e => ⟨e.marked, v⟩

/-- The entry at index `i` (an unmarked empty entry when out of range). -/
def entry (l : List FileEntry) (i : Nat) : FileEntry :=
  l[i]?.getD ⟨false, 0⟩

/-- `current_panel->marked`: the number of marked entries. -/
def markedCount (l : List FileEntry) : Nat :=
  l.countP fun e => e.marked

/-- Index of the first marked entry of `l`, if any. -/
def find_marked : List FileEntry → Option Nat
  | [] => none
  | e :: l => if e.marked then some 0 else (find_marked l).map (· + 1)

/-- `next_file ()`: advance `current_file` to the next marked entry at or
after `cur` (the C loop runs off the list when no marked entry remains,
which the callers rule out; here that is `none`). -/
def next_file (l : List FileEntry) (cur : Nat) : Option Nat :=
  (find_marked (l.drop cur)).map (cur + ·)

/-- Result of one `do_chattr` call: the C return value, `ignore_all`, the
panel afterwards and the I/O events. -/
structure DoOut where
  ret : Bool
  ignore_all : Bool
  files : List FileEntry
  events : List Event
deriving DecidableEq, Repr

/-- `do_chattr (p, m)`: apply the masks (`m &= and_mask; m |= or_mask`),
run `try_chattr`, then unconditionally `do_file_mark (current_panel,
current_file, 0)` and return `try_chattr`'s result.  `i` is
`current_file`. -/
def do_chattr (wr : Nat → Bool) (dec : Nat → QueryResult) (am om : Nat)
    (files : List FileEntry) (i : Nat) (m : Nat) (ia : Bool) (fuel : Nat) : Option DoOut :=
  let v := chattr_transform am om m
  match try_chattr wr dec i v fuel 0 ia with
  | none => none
  | some r =>
    some ⟨r.ret, r.ignore_all,
      unmark (if r.wrote then setFlags files i v else files) i, r.events⟩

/-- Result of a whole batch run: the panel, the final `current_file`
cursor, `ignore_all`, the I/O events in order, and whether a Cancel answer
aborted the run (`do_chattr` returned FALSE). -/
structure BatchOut where
  files : List FileEntry
  cur : Nat
  ignore_all : Bool
  events : List Event
  aborted : Bool
deriving DecidableEq, Repr

/-- The `do { ... } while (ok && current_panel->marked != 0)` loop of
`chattr_apply_mask`: fetch the next marked file, `fgetflags` it (outcome
oracle `readOk`; on failure unmark and continue silently), otherwise
`do_chattr` its freshly read flags.  `wr i k` / `dec i k` are the
`fsetflags` and prompt oracles for file `i`. -/
def apply_loop (wr : Nat → Nat → Bool) (dec : Nat → Nat → QueryResult)
    (readOk : Nat → Bool) (am om : Nat) :
    Nat → List FileEntry → Nat → Bool → Option BatchOut
  | 0, _, _, _ => none
  | fuel + 1, files, cur, ia =>
    match next_file files cur with
    | none => none
    | some i =>
      if readOk i then
        match do_chattr (wr i) (dec i) am om files i (entry files i).flags ia fuel with
        | none => none
        | some r =>
          if r.ret then
            if markedCount r.files ≠ 0 then
              match apply_loop wr dec readOk am om fuel r.files i r.ignore_all with
              | none => none
              | some out => some ⟨out.files, out.cur, out.ignore_all,
                  Event.eread i :: r.events ++ out.events, out.aborted⟩
            else some ⟨r.files, i, r.ignore_all, Event.eread i :: r.events, false⟩
          else some ⟨r.files, i, r.ignore_all, Event.eread i :: r.events, true⟩
      else
        if markedCount (unmark files i) ≠ 0 then
          match apply_loop wr dec readOk am om fuel (unmark files i) i ia with
          | none => none
          | some out => some ⟨out.files, out.cur, out.ignore_all,
              Event.eread i :: out.events, out.aborted⟩
        else some ⟨unmark files i, i, ia, [Event.eread i], false⟩

/-- `chattr_apply_mask (vpath, m)`: `do_chattr` the current file `cur` with
the already-known flags `m` (read when the dialog was opened); on FALSE
stop at once, otherwise run the loop over the remaining marked files. -/
def chattr_apply_mask (wr : Nat → Nat → Bool) (dec : Nat → Nat → QueryResult)
    (readOk : Nat → Bool) (am om : Nat) (fuel : Nat)
    (files : List FileEntry) (cur : Nat) (m : Nat) (ia : Bool) : Option BatchOut :=
  match do_chattr (wr cur) (dec cur) am om files cur m ia fuel with
  | none => none
  | some r =>
    if r.ret then
      match apply_loop wr dec readOk am om fuel r.files cur r.ignore_all with
      | none => none
      | some out => some ⟨out.files, out.cur, out.ignore_all,
          r.events ++ out.events, out.aborted⟩
    else some ⟨r.files, cur, r.ignore_all, r.events, true⟩

/-- Number of `query_dialog` failure prompts in a trace. -/
def countPrompts (evs : List Event) : Nat :=
  evs.countP fun e => match e with | Event.eprompt _ => true | _ => false

/-- Number of `fsetflags` attempts in a trace. -/
def countWrites (evs : List Event) : Nat :=
  evs.countP fun e => match e with | Event.ewrite _ _ => true | _ => false

/-- Observables of the `B_ENTER` branch of `chattr_cmd`: how many
`fsetflags` calls were made, how many `query_dialog` prompts were shown,
whether the new flags reached the disk, whether the plain error `message`
box was shown, and whether the run turned into `B_CANCEL`. -/
structure EnterOut where
  writes : Nat
  prompts : Nat
  applied : Bool
  message : Bool
  cancelled : Bool
deriving DecidableEq, Repr

/-- The `B_ENTER` case of `chattr_cmd` with `flags_changed` true, writing
the flags word `v`: when `current_panel->marked <= 1` (single or last
file) one `fsetflags` call is made and on failure with `ignore_all` unset
an error `message` is shown; otherwise `try_chattr` runs and a FALSE
return turns the result into `B_CANCEL`. -/
def chattr_cmd_enter (marked : Nat) (v : Nat) (wr : Nat → Bool)
    (dec : Nat → QueryResult) (ia : Bool) (fuel : Nat) : Option EnterOut :=
  if marked ≤ 1 then
    some ⟨1, 0, wr 0, !wr 0 && !ia, false⟩
  else
    match try_chattr wr dec 0 v fuel 0 ia with
    | none => none
    | some r => some ⟨countWrites r.events, countPrompts r.events, r.wrote, false, !r.ret⟩

/-- Follows the spec's words for SINGLE_FILE_APPLY (claim C5), for
comparison with `chattr_cmd_enter`: "write once via AttributeIO; on
failure consult RetryPolicy only for the {Retry} outcome (looping until
success, skip, or abort)".  Each failed write prompts; Retry writes again;
any other answer ends the operation. -/
def single_apply_spec (wr : Nat → Bool) (dec : Nat → QueryResult) :
    Nat → Nat → Option EnterOut
  | 0, _ => none
  | fuel + 1, k =>
    if wr k then some ⟨k + 1, k, true, false, false⟩
    else
      match dec k with
      | QueryResult.retry => single_apply_spec wr dec fuel (k + 1)
      | QueryResult.cancel => some ⟨k + 1, k + 1, false, false, true⟩
      | _ => some ⟨k + 1, k + 1, false, false, false⟩

/-- Claim C9: for every flags word `x` and every mask pair, the `do_chattr`
transformation `f(x) = (x & and_mask) | or_mask` is idempotent:
`f (f x) = f x`. -/
theorem chattr_transform_idempotent (a o x : Nat) :
    chattr_transform a o (chattr_transform a o x) = chattr_transform a o x := by
  apply Nat.eq_of_testBit_eq
  intro i
  simp only [chattr_transform, Nat.testBit_or, Nat.testBit_and]
  cases x.testBit i <;> cases a.testBit i <;> cases o.testBit i <;> rfl

/-- Counterexample to claim C6: on the spec's own 3-bit catalog with every
checkbox on, B_SETALL does not produce `and_mask = 0b111`: `and_mask` starts
at `~0` and checked attributes never clear bits from it, so it stays all
ones.  The claimed pair `(and_mask, or_mask) = (0b111, 0b111)` is wrong. -/
theorem setall_mask_counterexample :
    ¬((chattr_cmd_mask ChattrBtn.setall cat3).1 = 0b111 ∧
      (chattr_cmd_mask ChattrBtn.setall cat3).2 = 0b111) := by
  decide

/-- Claim C6 (amended): SET_ALL with every checkbox on over the catalog with
modifiable bits {1, 2, 4} yields `or_mask = 0b111` (exactly the modifiable
bits) and `and_mask = MASK32` (all ones, the identity on every bit), so the
checked bits are forced set via `or_mask` and all other bits pass through. -/
theorem setall_mask_all_checked :
    chattr_cmd_mask ChattrBtn.setall cat3 = (MASK32, 0b111) := by
  decide

theorem MASK32_testBit (b : Nat) : MASK32.testBit b = decide (b < 32) :=
  Nat.testBit_two_pow_sub_one 32 b

theorem step_setall_marked_eq (b : Bool) :
    step_setall_marked b = mask_step
      (fun a => a.modifiable && (a.selected || b) && a.state)
      (fun a => a.modifiable && (a.selected || b) && !a.state) := by
  funext p a
  obtain ⟨f, m, sl, st⟩ := a
  cases m <;> cases sl <;> cases st <;> cases b <;>
    simp [step_setall_marked, mask_step]

theorem step_setmrk_eq :
    step_setmrk = mask_step (fun a => a.modifiable && a.selected) (fun _ => false) := by
  funext p a
  obtain ⟨f, m, sl, st⟩ := a
  cases m <;> cases sl <;> simp [step_setmrk, mask_step]

theorem step_clrmrk_eq :
    step_clrmrk = mask_step (fun _ => false) (fun a => a.modifiable && a.selected) := by
  funext p a
  obtain ⟨f, m, sl, st⟩ := a
  cases m <;> cases sl <;> simp [step_clrmrk, mask_step]

theorem foldl_mask_snd_testBit (s c : AttrState → Bool) :
    ∀ (attrs : List AttrState) (p : Nat × Nat) (b : Nat),
      ((attrs.foldl (mask_step s c) p).2).testBit b
        = (p.2.testBit b || attrs.any fun a => s a && a.flags.testBit b)
  | [], p, b => by simp
  | a :: attrs, p, b => by
    rw [List.foldl_cons, foldl_mask_snd_testBit s c attrs]
    simp only [mask_step, List.any_cons]
    by_cases hs : s a
    · simp [hs, Nat.testBit_or, Bool.or_assoc]
    · by_cases hc : c a <;> simp [hs, hc]

theorem foldl_mask_fst_testBit (s c : AttrState → Bool) :
    ∀ (attrs : List AttrState) (p : Nat × Nat) (b : Nat), b < 32 →
      ((attrs.foldl (mask_step s c) p).1).testBit b
        = (p.1.testBit b && !(attrs.any fun a => !s a && c a && a.flags.testBit b))
  | [], p, b, _ => by simp
  | a :: attrs, p, b, hb => by
    rw [List.foldl_cons, foldl_mask_fst_testBit s c attrs _ _ hb]
    simp only [mask_step, List.any_cons]
    by_cases hs : s a
    · simp [hs]
    · by_cases hc : c a
      · have hm : MASK32.testBit b = true := by
          rw [MASK32_testBit]
          simp [hb]
        simp [hs, hc, Nat.testBit_and, Nat.testBit_xor, hm, Bool.true_xor,
          Bool.not_or, Bool.and_assoc]
      · simp [hs, hc]

theorem mask_fold_no_conflict (s c : AttrState → Bool) (attrs : List AttrState)
    (hdisj : attrs.Pairwise fun x y => x.flags &&& y.flags = 0)
    (hlt : ∀ a ∈ attrs, a.flags < 2 ^ 32) :
    (attrs.foldl (mask_step s c) (MASK32, 0)).2 &&&
      (MASK32 ^^^ (attrs.foldl (mask_step s c) (MASK32, 0)).1) = 0 := by
  apply Nat.eq_of_testBit_eq
  intro b
  rw [Nat.zero_testBit, Nat.testBit_and, Nat.testBit_xor, foldl_mask_snd_testBit]
  by_cases hb : b < 32
  · rw [foldl_mask_fst_testBit s c attrs _ _ hb]
    have hm : MASK32.testBit b = true := by
      rw [MASK32_testBit]
      simp [hb]
    by_cases hS : (attrs.any fun a => s a && a.flags.testBit b) = true
    · have hC : (attrs.any fun a => !s a && c a && a.flags.testBit b) = false := by
        by_contra hC'
        rw [Bool.not_eq_false] at hC'
        obtain ⟨a1, ha1, h1⟩ := List.any_eq_true.mp hS
        obtain ⟨a2, ha2, h2⟩ := List.any_eq_true.mp hC'
        have hs1 : s a1 = true := by
          cases h : s a1 <;> simp [h] at h1 ⊢
        have hb1 : a1.flags.testBit b = true := by
          cases h : a1.flags.testBit b <;> simp [h] at h1 ⊢
        have hs2 : s a2 = false := by
          cases h : s a2 <;> simp [h] at h2 ⊢
        have hb2 : a2.flags.testBit b = true := by
          cases h : a2.flags.testBit b <;> simp [h] at h2 ⊢
        have hne : a1 ≠ a2 := by
          intro he
          rw [he, hs2] at hs1
          exact Bool.false_ne_true hs1
        have hd : a1.flags &&& a2.flags = 0 :=
          List.Pairwise.forall (fun x y h => by rw [Nat.land_comm]; exact h) hdisj ha1 ha2 hne
        have hcontra : (a1.flags &&& a2.flags).testBit b = true := by
          rw [Nat.testBit_and, hb1, hb2]
          rfl
        rw [hd, Nat.zero_testBit] at hcontra
        exact Bool.false_ne_true hcontra
      simp [hS, hC, hm]
    · rw [Bool.not_eq_true] at hS
      simp [hS]
  · have hS : (attrs.any fun a => s a && a.flags.testBit b) = false := by
      rw [List.any_eq_false]
      intro a ha
      have hfb : a.flags.testBit b = false :=
        Nat.testBit_lt_two_pow
          (lt_of_lt_of_le (hlt a ha) (Nat.pow_le_pow_right (by norm_num) (by omega)))
      simp [hfb]
    simp [hS]

/-- Claim C7: every mask pair produced by any of the four batch operations
over the real attribute table (whatever the modifiability, star-selection
and checkbox state of each attribute) never simultaneously forces a bit
cleared and set: `or_mask & ~and_mask = 0` (the complement taken within the
32-bit word), i.e. each bit is one of identity (1,0), force-set (1,1) or
force-clear (0,0). -/
theorem chattr_mask_no_conflict (btn : ChattrBtn) (mod sel chk : Nat → Bool) :
    (chattr_cmd_mask btn (mkAttrs mod sel chk)).2 &&&
      (MASK32 ^^^ (chattr_cmd_mask btn (mkAttrs mod sel chk)).1) = 0 := by
  have hdisj : (mkAttrs mod sel chk).Pairwise fun x y => x.flags &&& y.flags = 0 := by
    rw [mkAttrs, List.pairwise_map]
    exact (by decide : check_attr.Pairwise fun x y => x.1 &&& y.1 = 0)
  have hlt : ∀ a ∈ mkAttrs mod sel chk, a.flags < 2 ^ 32 := by
    intro a ha
    rw [mkAttrs, List.mem_map] at ha
    obtain ⟨fc, hfc, rfl⟩ := ha
    exact (by decide : ∀ fc ∈ check_attr, fc.1 < 2 ^ 32) fc hfc
  cases btn <;>
    simp only [chattr_cmd_mask, step_setall_marked_eq, step_setmrk_eq, step_clrmrk_eq] <;>
    exact mask_fold_no_conflict _ _ _ hdisj hlt

theorem mask_fold_nonmod_identity (s c : AttrState → Bool)
    (hsc : ∀ a : AttrState, a.modifiable = false → s a = false ∧ c a = false)
    (mod sel chk : Nat → Bool) (f : Nat) (ch : Char)
    (hmem : (f, ch) ∈ check_attr) (hmod : mod f = false) (b : Nat)
    (hbit : f.testBit b = true) :
    ((mkAttrs mod sel chk).foldl (mask_step s c) (MASK32, 0)).1.testBit b = true ∧
    ((mkAttrs mod sel chk).foldl (mask_step s c) (MASK32, 0)).2.testBit b = false := by
  have hflt : ∀ fc ∈ check_attr, fc.1 < 2 ^ 32 := by decide
  have hb : b < 32 := by
    by_contra hb'
    have hlt : f < 2 ^ b :=
      lt_of_lt_of_le (hflt (f, ch) hmem) (Nat.pow_le_pow_right (by norm_num) (by omega))
    rw [Nat.testBit_lt_two_pow hlt] at hbit
    exact Bool.false_ne_true hbit
  have key : ∀ a ∈ mkAttrs mod sel chk, a.flags.testBit b = true →
      s a = false ∧ c a = false := by
    intro a ha htb
    rw [mkAttrs, List.mem_map] at ha
    obtain ⟨fc, hfc, rfl⟩ := ha
    by_cases heq : fc.1 = f
    · refine hsc _ ?_
      show mod fc.1 = false
      rw [heq]
      exact hmod
    · have hpair : check_attr.Pairwise (fun x y => x.1 &&& y.1 = 0) := by decide
      have hne : fc ≠ (f, ch) := fun he => heq (by rw [he])
      have hdisj : fc.1 &&& f = 0 :=
        List.Pairwise.forall
          (fun x y h => by rw [Nat.land_comm]; exact h) hpair hfc hmem hne
      have htb' : fc.1.testBit b = true := htb
      have hcontra : (fc.1 &&& f).testBit b = true := by
        rw [Nat.testBit_and, htb', hbit]
        rfl
      rw [hdisj, Nat.zero_testBit] at hcontra
      exact absurd hcontra Bool.false_ne_true
  constructor
  · rw [foldl_mask_fst_testBit s c _ _ _ hb]
    have hM : MASK32.testBit b = true := by
      rw [MASK32_testBit]
      simp [hb]
    have hany : ((mkAttrs mod sel chk).any fun a => !s a && c a && a.flags.testBit b)
        = false := by
      rw [List.any_eq_false]
      intro a ha
      by_cases htb : a.flags.testBit b = true
      · obtain ⟨_, hcf⟩ := key a ha htb
        simp [hcf]
      · rw [Bool.not_eq_true] at htb
        simp [htb]
    simp [hM, hany]
  · rw [foldl_mask_snd_testBit]
    have hany : ((mkAttrs mod sel chk).any fun a => s a && a.flags.testBit b) = false := by
      rw [List.any_eq_false]
      intro a ha
      by_cases htb : a.flags.testBit b = true
      · obtain ⟨hsf, _⟩ := key a ha htb
        simp [hsf]
      · rw [Bool.not_eq_true] at htb
        simp [htb]
    simp [hany]

/-- Claim C8: for every batch operation and every non-modifiable row of the
attribute table, the row never influences the built masks: its bit keeps
the identity transform (`and_mask` bit 1, `or_mask` bit 0) whatever its
checkbox or star-selection state (and whatever every other attribute's
state). -/
theorem nonmodifiable_never_influences (btn : ChattrBtn) (mod sel chk : Nat → Bool)
    (f : Nat) (ch : Char) (hmem : (f, ch) ∈ check_attr) (hmod : mod f = false)
    (b : Nat) (hbit : f.testBit b = true) :
    (chattr_cmd_mask btn (mkAttrs mod sel chk)).1.testBit b = true ∧
    (chattr_cmd_mask btn (mkAttrs mod sel chk)).2.testBit b = false := by
  cases btn <;>
    simp only [chattr_cmd_mask, step_setall_marked_eq, step_setmrk_eq, step_clrmrk_eq] <;>
    exact mask_fold_nonmod_identity _ _ (fun a hm => by simp [hm]) mod sel chk
      f ch hmem hmod b hbit

/-- Witness for C8: the Secure-deletion row (bit 0x1) declared
non-modifiable keeps identity on bit 0 under B_SETALL with every checkbox
on. -/
theorem nonmodifiable_never_influences_witness :
    ((1, 's') ∈ check_attr ∧ Nat.testBit 1 0 = true) ∧
    (chattr_cmd_mask ChattrBtn.setall
        (mkAttrs (fun _ => false) (fun _ => true) (fun _ => true))).1.testBit 0 = true ∧
    (chattr_cmd_mask ChattrBtn.setall
        (mkAttrs (fun _ => false) (fun _ => true) (fun _ => true))).2.testBit 0 = false :=
  ⟨⟨by decide, by decide⟩,
   nonmodifiable_never_influences ChattrBtn.setall (fun _ => false) (fun _ => true)
     (fun _ => true) 1 's' (by decide) rfl 0 (by decide)⟩

theorem updateAt_length : ∀ (l : List FileEntry) (i : Nat) (f : FileEntry → FileEntry),
    (updateAt l i f).length = l.length
  | [], _, _ => rfl
  | _ :: _, 0, _ => rfl
  | _ :: l, n + 1, f => by simp [updateAt, updateAt_length l n f]

theorem getElem?_updateAt_ne : ∀ (l : List FileEntry) (i : Nat) (f : FileEntry → FileEntry)
    (j : Nat), j ≠ i → (updateAt l i f)[j]? = l[j]?
  | [], _, _, _, _ => by simp [updateAt]
  | e :: l, 0, f, 0, h => absurd rfl h
  | e :: l, 0, f, j + 1, _ => by simp [updateAt]
  | e :: l, n + 1, f, 0, _ => by simp [updateAt]
  | e :: l, n + 1, f, j + 1, h => by
    simp only [updateAt, List.getElem?_cons_succ]
    exact getElem?_updateAt_ne l n f j (fun he => h (by rw [he]))

theorem getElem?_updateAt_self : ∀ (l : List FileEntry) (i : Nat) (f : FileEntry → FileEntry),
    (updateAt l i f)[i]? = l[i]?.map f
  | [], _, _ => by simp [updateAt]
  | e :: l, 0, f => by simp [updateAt]
  | e :: l, n + 1, f => by
    simp only [updateAt, List.getElem?_cons_succ]
    exact getElem?_updateAt_self l n f

theorem entry_updateAt_ne (l : List FileEntry) (i : Nat) (f : FileEntry → FileEntry)
    (j : Nat) (h : j ≠ i) : entry (updateAt l i f) j = entry l j := by
  simp [entry, getElem?_updateAt_ne l i f j h]

theorem entry_unmark_marked (l : List FileEntry) (i : Nat) :
    (entry (unmark l i) i).marked = false := by
  simp only [entry, unmark, getElem?_updateAt_self]
  cases l[i]? <;> simp

theorem entry_unmark_flags (l : List FileEntry) (i j : Nat) :
    (entry (unmark l i) j).flags = (entry l j).flags := by
  by_cases h : j = i
  · subst h
    simp only [entry, unmark, getElem?_updateAt_self]
    cases l[j]? <;> simp
  · simp only [unmark]
    rw [entry_updateAt_ne l i _ j h]

theorem entry_unmark_ne (l : List FileEntry) (i j : Nat) (h : j ≠ i) :
    entry (unmark l i) j = entry l j := by
  simp only [unmark]
  exact entry_updateAt_ne l i _ j h

theorem find_marked_spec : ∀ (l : List FileEntry) (j : Nat),
    find_marked l = some j → (entry l j).marked = true
  | [], j => by simp [find_marked]
  | e :: l, j => by
    intro h
    simp only [find_marked] at h
    by_cases hm : e.marked
    · rw [if_pos hm] at h
      simp only [Option.some.injEq] at h
      subst h
      simpa [entry] using hm
    · rw [if_neg hm] at h
      cases hf : find_marked l with
      | none => rw [hf] at h; simp at h
      | some j' =>
        rw [hf] at h
        simp only [Option.map_some', Option.some.injEq] at h
        subst h
        have := find_marked_spec l j' hf
        simpa [entry] using this

theorem next_file_spec (l : List FileEntry) (cur i : Nat)
    (h : next_file l cur = some i) : cur ≤ i ∧ (entry l i).marked = true := by
  simp only [next_file] at h
  cases hf : find_marked (l.drop cur) with
  | none => rw [hf] at h; simp at h
  | some j =>
    rw [hf] at h
    simp only [Option.map_some', Option.some.injEq] at h
    subst h
    refine ⟨Nat.le_add_right cur j, ?_⟩
    have hd := find_marked_spec (l.drop cur) j hf
    rwa [entry, List.getElem?_drop, ← entry] at hd

theorem try_chattr_ignore_all (wr : Nat → Bool) (dec : Nat → QueryResult) (i v : Nat)
    (fuel k : Nat) :
    try_chattr wr dec i v (fuel + 1) k true = some ⟨true, true, wr k, [Event.ewrite i v]⟩ := by
  cases hw : wr k <;> simp [try_chattr, hw]

theorem try_chattr_events (wr : Nat → Bool) (dec : Nat → QueryResult) (i v : Nat) :
    ∀ (fuel k : Nat) (ia : Bool) (r : TryOut),
      try_chattr wr dec i v fuel k ia = some r →
      ∀ e ∈ r.events, e = Event.eprompt i ∨ e = Event.ewrite i v
  | 0, k, ia, r => by simp [try_chattr]
  | fuel + 1, k, ia, r => by
    intro h e he
    simp only [try_chattr] at h
    cases hw : wr k with
    | true =>
      simp only [hw, if_true] at h
      simp only [Option.some.injEq] at h
      subst h
      simp only [List.mem_singleton] at he
      exact Or.inr he
    | false =>
      simp only [hw, Bool.false_eq_true, if_false] at h
      cases hia : ia with
      | true =>
        simp only [hia, if_true] at h
        simp only [Option.some.injEq] at h
        subst h
        simp only [List.mem_singleton] at he
        exact Or.inr he
      | false =>
        simp only [hia, Bool.false_eq_true, if_false] at h
        cases hd : dec k with
        | ignore =>
          rw [hd] at h
          simp only [Option.some.injEq] at h
          subst h
          simp only [List.mem_cons, List.mem_singleton] at he
          rcases he with he | he | he
          · exact Or.inr he
          · exact Or.inl he
          · exact absurd he (by simp)
        | ignoreAll =>
          rw [hd] at h
          simp only [Option.some.injEq] at h
          subst h
          simp only [List.mem_cons, List.mem_singleton] at he
          rcases he with he | he | he
          · exact Or.inr he
          · exact Or.inl he
          · exact absurd he (by simp)
        | cancel =>
          rw [hd] at h
          simp only [Option.some.injEq] at h
          subst h
          simp only [List.mem_cons, List.mem_singleton] at he
          rcases he with he | he | he
          · exact Or.inr he
          · exact Or.inl he
          · exact absurd he (by simp)
        | retry =>
          rw [hd] at h
          cases hrec : try_chattr wr dec i v fuel (k + 1) false with
          | none => rw [hrec] at h; simp at h
          | some r2 =>
            rw [hrec] at h
            simp only [Option.some.injEq] at h
            subst h
            simp only [List.mem_cons] at he
            rcases he with he | he | he
            · exact Or.inr he
            · exact Or.inl he
            · exact try_chattr_events wr dec i v fuel (k + 1) false r2 hrec e he

theorem try_chattr_ret_false_wrote (wr : Nat → Bool) (dec : Nat → QueryResult) (i v : Nat) :
    ∀ (fuel k : Nat) (ia : Bool) (r : TryOut),
      try_chattr wr dec i v fuel k ia = some r → r.ret = false → r.wrote = false
  | 0, k, ia, r => by simp [try_chattr]
  | fuel + 1, k, ia, r => by
    intro h hret
    simp only [try_chattr] at h
    cases hw : wr k with
    | true =>
      simp only [hw, if_true, Option.some.injEq] at h
      subst h
      simp at hret
    | false =>
      simp only [hw, Bool.false_eq_true, if_false] at h
      cases hia : ia with
      | true =>
        simp only [hia, if_true, Option.some.injEq] at h
        subst h
        simp at hret
      | false =>
        simp only [hia, Bool.false_eq_true, if_false] at h
        cases hd : dec k with
        | ignore =>
          rw [hd] at h
          simp only [Option.some.injEq] at h
          subst h
          simp at hret
        | ignoreAll =>
          rw [hd] at h
          simp only [Option.some.injEq] at h
          subst h
          simp at hret
        | cancel =>
          rw [hd] at h
          simp only [Option.some.injEq] at h
          subst h
          rfl
        | retry =>
          rw [hd] at h
          cases hrec : try_chattr wr dec i v fuel (k + 1) false with
          | none => rw [hrec] at h; simp at h
          | some r2 =>
            rw [hrec] at h
            simp only [Option.some.injEq] at h
            subst h
            exact try_chattr_ret_false_wrote wr dec i v fuel (k + 1) false r2 hrec hret

theorem try_chattr_ia_mono (wr : Nat → Bool) (dec : Nat → QueryResult) (i v : Nat)
    (fuel k : Nat) (r : TryOut)
    (h : try_chattr wr dec i v fuel k true = some r) : r.ignore_all = true := by
  cases fuel with
  | zero => simp [try_chattr] at h
  | succ fuel =>
    rw [try_chattr_ignore_all] at h
    simp only [Option.some.injEq] at h
    subst h
    rfl

theorem entry_setFlags_ne (l : List FileEntry) (i v j : Nat) (h : j ≠ i) :
    entry (setFlags l i v) j = entry l j := by
  simp only [setFlags]
  exact entry_updateAt_ne l i _ j h

theorem do_chattr_some (wr : Nat → Bool) (dec : Nat → QueryResult) (am om : Nat)
    (files : List FileEntry) (i m : Nat) (ia : Bool) (fuel : Nat) (r : DoOut)
    (h : do_chattr wr dec am om files i m ia fuel = some r) :
    ∃ t : TryOut, try_chattr wr dec i (chattr_transform am om m) fuel 0 ia = some t ∧
      r = ⟨t.ret, t.ignore_all,
        unmark (if t.wrote then setFlags files i (chattr_transform am om m) else files) i,
        t.events⟩ := by
  simp only [do_chattr] at h
  cases ht : try_chattr wr dec i (chattr_transform am om m) fuel 0 ia with
  | none => rw [ht] at h; simp at h
  | some t =>
    rw [ht] at h
    simp only [Option.some.injEq] at h
    exact ⟨t, rfl, h.symm⟩

theorem do_chattr_unmarked (wr : Nat → Bool) (dec : Nat → QueryResult) (am om : Nat)
    (files : List FileEntry) (i m : Nat) (ia : Bool) (fuel : Nat) (r : DoOut)
    (h : do_chattr wr dec am om files i m ia fuel = some r) :
    (entry r.files i).marked = false := by
  obtain ⟨t, _, rfl⟩ := do_chattr_some wr dec am om files i m ia fuel r h
  exact entry_unmark_marked _ i

theorem do_chattr_frame (wr : Nat → Bool) (dec : Nat → QueryResult) (am om : Nat)
    (files : List FileEntry) (i m : Nat) (ia : Bool) (fuel : Nat) (r : DoOut)
    (h : do_chattr wr dec am om files i m ia fuel = some r)
    (j : Nat) (hj : j ≠ i) : entry r.files j = entry files j := by
  obtain ⟨t, _, rfl⟩ := do_chattr_some wr dec am om files i m ia fuel r h
  show entry (unmark _ i) j = entry files j
  rw [entry_unmark_ne _ i j hj]
  cases t.wrote with
  | true => simp only [if_true]; exact entry_setFlags_ne files i _ j hj
  | false => simp only [Bool.false_eq_true, if_false]

theorem do_chattr_events (wr : Nat → Bool) (dec : Nat → QueryResult) (am om : Nat)
    (files : List FileEntry) (i m : Nat) (ia : Bool) (fuel : Nat) (r : DoOut)
    (h : do_chattr wr dec am om files i m ia fuel = some r) :
    ∀ e ∈ r.events, e = Event.eprompt i ∨ e = Event.ewrite i (chattr_transform am om m) := by
  obtain ⟨t, ht, rfl⟩ := do_chattr_some wr dec am om files i m ia fuel r h
  exact try_chattr_events wr dec i _ fuel 0 ia t ht

theorem do_chattr_ret_false_flags (wr : Nat → Bool) (dec : Nat → QueryResult) (am om : Nat)
    (files : List FileEntry) (i m : Nat) (ia : Bool) (fuel : Nat) (r : DoOut)
    (h : do_chattr wr dec am om files i m ia fuel = some r) (hret : r.ret = false) :
    (entry r.files i).flags = (entry files i).flags := by
  obtain ⟨t, ht, rfl⟩ := do_chattr_some wr dec am om files i m ia fuel r h
  have hw : t.wrote = false :=
    try_chattr_ret_false_wrote wr dec i _ fuel 0 ia t ht hret
  show (entry (unmark _ i) i).flags = (entry files i).flags
  rw [hw]
  simp only [Bool.false_eq_true, if_false]
  exact entry_unmark_flags files i i

theorem do_chattr_ia (wr : Nat → Bool) (dec : Nat → QueryResult) (am om : Nat)
    (files : List FileEntry) (i m : Nat) (fuel : Nat) (r : DoOut)
    (h : do_chattr wr dec am om files i m true fuel = some r) :
    r.ret = true ∧ r.ignore_all = true ∧
      r.events = [Event.ewrite i (chattr_transform am om m)] := by
  obtain ⟨t, ht, rfl⟩ := do_chattr_some wr dec am om files i m true fuel r h
  cases fuel with
  | zero => simp [try_chattr] at ht
  | succ fuel =>
    rw [try_chattr_ignore_all] at ht
    simp only [Option.some.injEq] at ht
    subst ht
    exact ⟨rfl, rfl, rfl⟩

theorem apply_loop_succ_inv (wr : Nat → Nat → Bool) (dec : Nat → Nat → QueryResult)
    (readOk : Nat → Bool) (am om : Nat) (fuel : Nat) (files : List FileEntry)
    (cur : Nat) (ia : Bool) (out : BatchOut)
    (h : apply_loop wr dec readOk am om (fuel + 1) files cur ia = some out) :
    ∃ i, next_file files cur = some i ∧
      ((readOk i = true ∧ ∃ r,
          do_chattr (wr i) (dec i) am om files i (entry files i).flags ia fuel = some r ∧
          ((r.ret = true ∧ markedCount r.files ≠ 0 ∧ ∃ out2,
              apply_loop wr dec readOk am om fuel r.files i r.ignore_all = some out2 ∧
              out = ⟨out2.files, out2.cur, out2.ignore_all,
                Event.eread i :: r.events ++ out2.events, out2.aborted⟩) ∨
           (r.ret = true ∧ markedCount r.files = 0 ∧
              out = ⟨r.files, i, r.ignore_all, Event.eread i :: r.events, false⟩) ∨
           (r.ret = false ∧
              out = ⟨r.files, i, r.ignore_all, Event.eread i :: r.events, true⟩))) ∨
       (readOk i = false ∧
          ((markedCount (unmark files i) ≠ 0 ∧ ∃ out2,
              apply_loop wr dec readOk am om fuel (unmark files i) i ia = some out2 ∧
              out = ⟨out2.files, out2.cur, out2.ignore_all,
                Event.eread i :: out2.events, out2.aborted⟩) ∨
           (markedCount (unmark files i) = 0 ∧
              out = ⟨unmark files i, i, ia, [Event.eread i], false⟩)))) := by
  simp only [apply_loop] at h
  split at h
  · exact absurd h (by simp)
  · rename_i i hnf
    refine ⟨i, hnf, ?_⟩
    split at h
    · rename_i hro
      left
      refine ⟨hro, ?_⟩
      split at h
      · exact absurd h (by simp)
      · rename_i r hdo
        refine ⟨r, hdo, ?_⟩
        split at h
        · rename_i hret
          split at h
          · rename_i hmc
            split at h
            · exact absurd h (by simp)
            · rename_i out2 hrec
              simp only [Option.some.injEq] at h
              exact Or.inl ⟨hret, hmc, out2, hrec, h.symm⟩
          · rename_i hmc
            simp only [Option.some.injEq] at h
            exact Or.inr (Or.inl ⟨hret, by omega, h.symm⟩)
        · rename_i hret
          simp only [Option.some.injEq] at h
          exact Or.inr (Or.inr ⟨by revert hret; cases r.ret <;> simp, h.symm⟩)
    · rename_i hro
      right
      refine ⟨by revert hro; cases readOk i <;> simp, ?_⟩
      split at h
      · rename_i hmc
        split at h
        · exact absurd h (by simp)
        · rename_i out2 hrec
          simp only [Option.some.injEq] at h
          exact Or.inl ⟨hmc, out2, hrec, h.symm⟩
      · rename_i hmc
        simp only [Option.some.injEq] at h
        exact Or.inr ⟨by omega, h.symm⟩

theorem apply_loop_frame (wr : Nat → Nat → Bool) (dec : Nat → Nat → QueryResult)
    (readOk : Nat → Bool) (am om : Nat) :
    ∀ (fuel : Nat) (files : List FileEntry) (cur : Nat) (ia : Bool) (out : BatchOut),
      apply_loop wr dec readOk am om fuel files cur ia = some out →
      cur ≤ out.cur ∧ (∀ e ∈ out.events, e.idx ≤ out.cur) ∧
        ∀ j, out.cur < j → entry out.files j = entry files j
  | 0, files, cur, ia, out => by simp [apply_loop]
  | fuel + 1, files, cur, ia, out => by
    intro h
    obtain ⟨i, hnf, hcase⟩ := apply_loop_succ_inv wr dec readOk am om fuel files cur ia out h
    obtain ⟨hci, -⟩ := next_file_spec files cur i hnf
    rcases hcase with ⟨hro, r, hdo, hsub⟩ | ⟨hro, hsub⟩
    · have hev : ∀ e ∈ r.events, e.idx = i := by
        intro e he
        rcases do_chattr_events _ _ _ _ _ _ _ _ _ _ hdo e he with he' | he' <;> rw [he'] <;> rfl
      have hfr : ∀ j, j ≠ i → entry r.files j = entry files j := fun j hj =>
        do_chattr_frame _ _ _ _ _ _ _ _ _ _ hdo j hj
      rcases hsub with ⟨-, -, out2, hrec, rfl⟩ | ⟨-, -, rfl⟩ | ⟨-, rfl⟩
      · obtain ⟨h1, h2, h3⟩ :=
          apply_loop_frame wr dec readOk am om fuel r.files i r.ignore_all out2 hrec
        refine ⟨le_trans hci h1, ?_, ?_⟩
        · intro e he
          simp only [List.mem_cons, List.mem_append] at he
          rcases he with (rfl | he) | he
          · exact h1
          · rw [hev e he]; exact h1
          · exact h2 e he
        · intro j hj
          have hj2 : out2.cur < j := hj
          show entry out2.files j = entry files j
          rw [h3 j hj2]
          exact hfr j (by omega)
      · refine ⟨hci, ?_, ?_⟩
        · intro e he
          simp only [List.mem_cons] at he
          rcases he with rfl | he
          · exact le_refl i
          · rw [hev e he]
        · intro j hj
          have hj2 : i < j := hj
          exact hfr j (by omega)
      · refine ⟨hci, ?_, ?_⟩
        · intro e he
          simp only [List.mem_cons] at he
          rcases he with rfl | he
          · exact le_refl i
          · rw [hev e he]
        · intro j hj
          have hj2 : i < j := hj
          exact hfr j (by omega)
    · rcases hsub with ⟨-, out2, hrec, rfl⟩ | ⟨-, rfl⟩
      · obtain ⟨h1, h2, h3⟩ :=
          apply_loop_frame wr dec readOk am om fuel (unmark files i) i ia out2 hrec
        refine ⟨le_trans hci h1, ?_, ?_⟩
        · intro e he
          simp only [List.mem_cons] at he
          rcases he with rfl | he
          · exact h1
          · exact h2 e he
        · intro j hj
          have hj2 : out2.cur < j := hj
          show entry out2.files j = entry files j
          rw [h3 j hj2]
          exact entry_unmark_ne files i j (by omega)
      · refine ⟨hci, ?_, ?_⟩
        · intro e he
          simp only [List.mem_singleton] at he
          subst he
          exact le_refl i
        · intro j hj
          have hj2 : i < j := hj
          exact entry_unmark_ne files i j (by omega)

theorem apply_loop_writes (wr : Nat → Nat → Bool) (dec : Nat → Nat → QueryResult)
    (readOk : Nat → Bool) (am om : Nat) :
    ∀ (fuel : Nat) (files : List FileEntry) (cur : Nat) (ia : Bool) (out : BatchOut),
      apply_loop wr dec readOk am om fuel files cur ia = some out →
      ∀ j w, Event.ewrite j w ∈ out.events →
        (entry files j).marked = true ∧ w = chattr_transform am om (entry files j).flags
  | 0, files, cur, ia, out => by simp [apply_loop]
  | fuel + 1, files, cur, ia, out => by
    intro h j w hw
    obtain ⟨i, hnf, hcase⟩ := apply_loop_succ_inv wr dec readOk am om fuel files cur ia out h
    obtain ⟨-, hmk⟩ := next_file_spec files cur i hnf
    rcases hcase with ⟨hro, r, hdo, hsub⟩ | ⟨hro, hsub⟩
    · have hself : Event.ewrite j w ∈ r.events →
          (entry files j).marked = true ∧ w = chattr_transform am om (entry files j).flags := by
        intro he
        rcases do_chattr_events _ _ _ _ _ _ _ _ _ _ hdo _ he with he' | he'
        · exact absurd he' (by simp)
        · injection he' with h1 h2
          subst h1
          subst h2
          exact ⟨hmk, rfl⟩
      have hrecpart : ∀ out2 : BatchOut,
          apply_loop wr dec readOk am om fuel r.files i r.ignore_all = some out2 →
          Event.ewrite j w ∈ out2.events →
          (entry files j).marked = true ∧ w = chattr_transform am om (entry files j).flags := by
        intro out2 hrec he
        obtain ⟨hm2, hw2⟩ :=
          apply_loop_writes wr dec readOk am om fuel r.files i r.ignore_all out2 hrec j w he
        have hji : j ≠ i := by
          intro hji
          rw [hji] at hm2
          rw [do_chattr_unmarked _ _ _ _ _ _ _ _ _ _ hdo] at hm2
          exact Bool.false_ne_true hm2
        rw [do_chattr_frame _ _ _ _ _ _ _ _ _ _ hdo j hji] at hm2 hw2
        exact ⟨hm2, hw2⟩
      rcases hsub with ⟨-, -, out2, hrec, rfl⟩ | ⟨-, -, rfl⟩ | ⟨-, rfl⟩
      · have hw2 : Event.ewrite j w ∈ Event.eread i :: r.events ++ out2.events := hw
        simp only [List.mem_cons, List.mem_append] at hw2
        rcases hw2 with (hw2 | hw2) | hw2
        · exact absurd hw2 (by simp)
        · exact hself hw2
        · exact hrecpart out2 hrec hw2
      · have hw2 : Event.ewrite j w ∈ Event.eread i :: r.events := hw
        simp only [List.mem_cons] at hw2
        rcases hw2 with hw2 | hw2
        · exact absurd hw2 (by simp)
        · exact hself hw2
      · have hw2 : Event.ewrite j w ∈ Event.eread i :: r.events := hw
        simp only [List.mem_cons] at hw2
        rcases hw2 with hw2 | hw2
        · exact absurd hw2 (by simp)
        · exact hself hw2
    · rcases hsub with ⟨-, out2, hrec, rfl⟩ | ⟨-, rfl⟩
      · have hw2 : Event.ewrite j w ∈ Event.eread i :: out2.events := hw
        simp only [List.mem_cons] at hw2
        rcases hw2 with hw2 | hw2
        · exact absurd hw2 (by simp)
        · obtain ⟨hm2, hv2⟩ :=
            apply_loop_writes wr dec readOk am om fuel (unmark files i) i ia out2 hrec j w hw2
          have hji : j ≠ i := by
            intro hji
            rw [hji] at hm2
            rw [entry_unmark_marked files i] at hm2
            exact Bool.false_ne_true hm2
          rw [entry_unmark_ne files i j hji] at hm2 hv2
          exact ⟨hm2, hv2⟩
      · have hw2 : Event.ewrite j w ∈ [Event.eread i] := hw
        simp only [List.mem_singleton] at hw2
        exact absurd hw2 (by simp)

theorem apply_loop_ignore_all_spec (wr : Nat → Nat → Bool) (dec : Nat → Nat → QueryResult)
    (readOk : Nat → Bool) (am om : Nat) :
    ∀ (fuel : Nat) (files : List FileEntry) (cur : Nat) (out : BatchOut),
      apply_loop wr dec readOk am om fuel files cur true = some out →
      out.ignore_all = true ∧ out.aborted = false ∧ ∀ i, Event.eprompt i ∉ out.events
  | 0, files, cur, out => by simp [apply_loop]
  | fuel + 1, files, cur, out => by
    intro h
    obtain ⟨i, hnf, hcase⟩ := apply_loop_succ_inv wr dec readOk am om fuel files cur true out h
    rcases hcase with ⟨hro, r, hdo, hsub⟩ | ⟨hro, hsub⟩
    · obtain ⟨hret, hia, hevs⟩ := do_chattr_ia _ _ _ _ _ _ _ _ _ hdo
      rcases hsub with ⟨-, -, out2, hrec, rfl⟩ | ⟨-, -, rfl⟩ | ⟨hret', -⟩
      · rw [hia] at hrec
        obtain ⟨h1, h2, h3⟩ :=
          apply_loop_ignore_all_spec wr dec readOk am om fuel r.files i out2 hrec
        refine ⟨h1, h2, ?_⟩
        intro k hk
        have hk2 : Event.eprompt k ∈ Event.eread i :: r.events ++ out2.events := hk
        simp only [List.mem_cons, List.mem_append] at hk2
        rcases hk2 with (hk2 | hk2) | hk2
        · exact absurd hk2 (by simp)
        · rw [hevs] at hk2
          simp only [List.mem_singleton] at hk2
          exact absurd hk2 (by simp)
        · exact h3 k hk2
      · refine ⟨hia, rfl, ?_⟩
        intro k hk
        have hk2 : Event.eprompt k ∈ Event.eread i :: r.events := hk
        simp only [List.mem_cons] at hk2
        rcases hk2 with hk2 | hk2
        · exact absurd hk2 (by simp)
        · rw [hevs] at hk2
          simp only [List.mem_singleton] at hk2
          exact absurd hk2 (by simp)
      · rw [hret] at hret'
        exact absurd hret' (by simp)
    · rcases hsub with ⟨-, out2, hrec, rfl⟩ | ⟨-, rfl⟩
      · obtain ⟨h1, h2, h3⟩ :=
          apply_loop_ignore_all_spec wr dec readOk am om fuel (unmark files i) i out2 hrec
        refine ⟨h1, h2, ?_⟩
        intro k hk
        have hk2 : Event.eprompt k ∈ Event.eread i :: out2.events := hk
        simp only [List.mem_cons] at hk2
        rcases hk2 with hk2 | hk2
        · exact absurd hk2 (by simp)
        · exact h3 k hk2
      · refine ⟨rfl, rfl, ?_⟩
        intro k hk
        have hk2 : Event.eprompt k ∈ [Event.eread i] := hk
        simp only [List.mem_singleton] at hk2
        exact absurd hk2 (by simp)

theorem chattr_apply_mask_inv (wr : Nat → Nat → Bool) (dec : Nat → Nat → QueryResult)
    (readOk : Nat → Bool) (am om fuel : Nat) (files : List FileEntry) (cur m : Nat)
    (ia : Bool) (out : BatchOut)
    (h : chattr_apply_mask wr dec readOk am om fuel files cur m ia = some out) :
    ∃ r, do_chattr (wr cur) (dec cur) am om files cur m ia fuel = some r ∧
      ((r.ret = true ∧ ∃ out2,
          apply_loop wr dec readOk am om fuel r.files cur r.ignore_all = some out2 ∧
          out = ⟨out2.files, out2.cur, out2.ignore_all,
            r.events ++ out2.events, out2.aborted⟩) ∨
       (r.ret = false ∧ out = ⟨r.files, cur, r.ignore_all, r.events, true⟩)) := by
  simp only [chattr_apply_mask] at h
  split at h
  · exact absurd h (by simp)
  · rename_i r hdo
    refine ⟨r, hdo, ?_⟩
    split at h
    · rename_i hret
      split at h
      · exact absurd h (by simp)
      · rename_i out2 hrec
        simp only [Option.some.injEq] at h
        exact Or.inl ⟨hret, out2, hrec, h.symm⟩
    · rename_i hret
      simp only [Option.some.injEq] at h
      exact Or.inr ⟨by revert hret; cases r.ret <;> simp, h.symm⟩

/-- Claim C2: when a write failure is resolved with Cancel (`do_chattr`
returns FALSE) the batch stops at the file `out.cur` where it happened: no
event (read, write or prompt) ever touches a file after it, files after it
are left exactly as they were, and in particular every marked file after it
remains marked. -/
theorem chattr_cancel_stops_batch (wr : Nat → Nat → Bool) (dec : Nat → Nat → QueryResult)
    (readOk : Nat → Bool) (am om fuel : Nat) (files : List FileEntry) (cur m : Nat)
    (ia : Bool) (out : BatchOut)
    (hrun : chattr_apply_mask wr dec readOk am om fuel files cur m ia = some out)
    (habort : out.aborted = true) :
    (∀ e ∈ out.events, e.idx ≤ out.cur) ∧
    (∀ j, out.cur < j → entry out.files j = entry files j) ∧
    (∀ j, out.cur < j → (entry files j).marked = true →
      (entry out.files j).marked = true) := by
  obtain ⟨r, hdo, hcase⟩ :=
    chattr_apply_mask_inv wr dec readOk am om fuel files cur m ia out hrun
  have hev : ∀ e ∈ r.events, e.idx = cur := by
    intro e he
    rcases do_chattr_events _ _ _ _ _ _ _ _ _ _ hdo e he with he' | he' <;> rw [he'] <;> rfl
  have hfr : ∀ j, j ≠ cur → entry r.files j = entry files j := fun j hj =>
    do_chattr_frame _ _ _ _ _ _ _ _ _ _ hdo j hj
  have main : (∀ e ∈ out.events, e.idx ≤ out.cur) ∧
      ∀ j, out.cur < j → entry out.files j = entry files j := by
    rcases hcase with ⟨hret, out2, hrec, rfl⟩ | ⟨hret, rfl⟩
    · obtain ⟨h1, h2, h3⟩ :=
        apply_loop_frame wr dec readOk am om fuel r.files cur r.ignore_all out2 hrec
      constructor
      · intro e he
        have he2 : e ∈ r.events ++ out2.events := he
        simp only [List.mem_append] at he2
        rcases he2 with he2 | he2
        · show e.idx ≤ out2.cur
          rw [hev e he2]
          exact h1
        · exact h2 e he2
      · intro j hj
        have hj2 : out2.cur < j := hj
        show entry out2.files j = entry files j
        rw [h3 j hj2]
        exact hfr j (by omega)
    · constructor
      · intro e he
        have he2 : e ∈ r.events := he
        show e.idx ≤ cur
        rw [hev e he2]
      · intro j hj
        have hj2 : cur < j := hj
        exact hfr j (by omega)
  exact ⟨main.1, main.2, fun j hj hm => by rw [main.2 j hj]; exact hm⟩

/-- Claim C1: in a multi-file batch every `fsetflags` on a file other than
the first applies the mask pair to that file's own freshly read flags:
the written value is `(fresh_flags & and_mask) | or_mask`.  Moreover bits
the masks do not force (`and_mask` bit 1, `or_mask` bit 0) keep the file's
prior value, while forced bits come out identical for every input word. -/
theorem chattr_batch_uses_fresh_flags (wr : Nat → Nat → Bool)
    (dec : Nat → Nat → QueryResult) (readOk : Nat → Bool) (am om fuel : Nat)
    (files : List FileEntry) (cur m : Nat) (ia : Bool) (out : BatchOut)
    (hrun : chattr_apply_mask wr dec readOk am om fuel files cur m ia = some out) :
    (∀ j w, Event.ewrite j w ∈ out.events →
       j = cur ∨ w = chattr_transform am om (entry files j).flags) ∧
    (∀ x b, am.testBit b = true → om.testBit b = false →
       (chattr_transform am om x).testBit b = x.testBit b) ∧
    (∀ x y b, am.testBit b = false ∨ om.testBit b = true →
       (chattr_transform am om x).testBit b = (chattr_transform am om y).testBit b) := by
  obtain ⟨r, hdo, hcase⟩ :=
    chattr_apply_mask_inv wr dec readOk am om fuel files cur m ia out hrun
  refine ⟨?_, ?_, ?_⟩
  · intro j w hw
    rcases hcase with ⟨hret, out2, hrec, rfl⟩ | ⟨hret, rfl⟩
    · have hw2 : Event.ewrite j w ∈ r.events ++ out2.events := hw
      simp only [List.mem_append] at hw2
      rcases hw2 with hw2 | hw2
      · rcases do_chattr_events _ _ _ _ _ _ _ _ _ _ hdo _ hw2 with he' | he'
        · exact absurd he' (by simp)
        · left
          injection he' with h1 h2
      · obtain ⟨hm2, hv2⟩ :=
          apply_loop_writes wr dec readOk am om fuel r.files cur r.ignore_all out2 hrec j w hw2
        have hji : j ≠ cur := by
          intro hji
          rw [hji] at hm2
          rw [do_chattr_unmarked _ _ _ _ _ _ _ _ _ _ hdo] at hm2
          exact Bool.false_ne_true hm2
        right
        rw [do_chattr_frame _ _ _ _ _ _ _ _ _ _ hdo j hji] at hv2
        exact hv2
    · have hw2 : Event.ewrite j w ∈ r.events := hw
      rcases do_chattr_events _ _ _ _ _ _ _ _ _ _ hdo _ hw2 with he' | he'
      · exact absurd he' (by simp)
      · left
        injection he' with h1 h2
  · intro x b hab hob
    simp only [chattr_transform, Nat.testBit_or, Nat.testBit_and, hab, hob]
    cases x.testBit b <;> rfl
  · intro x y b hor
    rcases hor with hab | hob
    · simp only [chattr_transform, Nat.testBit_or, Nat.testBit_and, hab]
      cases x.testBit b <;> cases y.testBit b <;> rfl
    · simp only [chattr_transform, Nat.testBit_or, Nat.testBit_and, hob]
      simp

/-- Claim C4: once `ignore_all` is true, `try_chattr` resolves a write
failure at once: it returns TRUE after the single `fsetflags` attempt with
no prompt and `ignore_all` still set; and a whole batch run entered with
`ignore_all` already true shows no prompt at all, never aborts, and keeps
`ignore_all` set (the flag is never reset during a batch). -/
theorem chattr_ignore_all_silences_prompts :
    (∀ (wr : Nat → Bool) (dec : Nat → QueryResult) (i v fuel k : Nat),
      try_chattr wr dec i v (fuel + 1) k true =
        some ⟨true, true, wr k, [Event.ewrite i v]⟩) ∧
    (∀ (wr : Nat → Nat → Bool) (dec : Nat → Nat → QueryResult) (readOk : Nat → Bool)
      (am om fuel : Nat) (files : List FileEntry) (cur m : Nat) (out : BatchOut),
      chattr_apply_mask wr dec readOk am om fuel files cur m true = some out →
      out.ignore_all = true ∧ out.aborted = false ∧
        ∀ i, Event.eprompt i ∉ out.events) := by
  constructor
  · intro wr dec i v fuel k
    exact try_chattr_ignore_all wr dec i v fuel k
  · intro wr dec readOk am om fuel files cur m out hrun
    obtain ⟨r, hdo, hcase⟩ :=
      chattr_apply_mask_inv wr dec readOk am om fuel files cur m true out hrun
    obtain ⟨hret, hia, hevs⟩ := do_chattr_ia _ _ _ _ _ _ _ _ _ hdo
    rcases hcase with ⟨-, out2, hrec, rfl⟩ | ⟨hret', -⟩
    · rw [hia] at hrec
      obtain ⟨h1, h2, h3⟩ :=
        apply_loop_ignore_all_spec wr dec readOk am om fuel r.files cur out2 hrec
      refine ⟨h1, h2, ?_⟩
      intro k hk
      have hk2 : Event.eprompt k ∈ r.events ++ out2.events := hk
      simp only [List.mem_append] at hk2
      rcases hk2 with hk2 | hk2
      · rw [hevs] at hk2
        simp only [List.mem_singleton] at hk2
        exact absurd hk2 (by simp)
      · exact h3 k hk2
    · rw [hret] at hret'
      exact absurd hret' (by simp)

/-- Claim C10: `do_chattr` unmarks the current file unconditionally before
returning — also when the user answered Cancel (`ret = false`); in that
case the file's attribute word is unchanged too, so the aborted file is
removed from the marked residue even though nothing was written to it. -/
theorem do_chattr_always_unmarks (wr : Nat → Bool) (dec : Nat → QueryResult)
    (am om : Nat) (files : List FileEntry) (i m : Nat) (ia : Bool) (fuel : Nat)
    (r : DoOut) (h : do_chattr wr dec am om files i m ia fuel = some r) :
    (entry r.files i).marked = false ∧
    (r.ret = false → (entry r.files i).flags = (entry files i).flags) :=
  ⟨do_chattr_unmarked wr dec am om files i m ia fuel r h,
   fun hret => do_chattr_ret_false_flags wr dec am om files i m ia fuel r h hret⟩

/-- Claim C3: when `fgetflags` fails on the next marked file `i`, the loop
unmarks `i` and advances with no prompt and no write — the only event is
the read itself — and the batch is never aborted by it: it continues with
the remaining marked files (or ends DONE when none remain). -/
theorem chattr_read_failure_skips (wr : Nat → Nat → Bool) (dec : Nat → Nat → QueryResult)
    (readOk : Nat → Bool) (am om fuel : Nat) (files : List FileEntry) (cur : Nat)
    (ia : Bool) (i : Nat) (hnf : next_file files cur = some i)
    (hro : readOk i = false) :
    apply_loop wr dec readOk am om (fuel + 1) files cur ia =
      (if markedCount (unmark files i) ≠ 0 then
        (apply_loop wr dec readOk am om fuel (unmark files i) i ia).map
          (fun out => ⟨out.files, out.cur, out.ignore_all,
            Event.eread i :: out.events, out.aborted⟩)
      else some ⟨unmark files i, i, ia, [Event.eread i], false⟩) := by
  by_cases hmc : markedCount (unmark files i) ≠ 0
  · rw [if_pos hmc]
    simp only [apply_loop, hnf, hro, Bool.false_eq_true, if_false, if_pos hmc]
    cases h2 : apply_loop wr dec readOk am om fuel (unmark files i) i ia <;> simp [h2]
  · rw [if_neg hmc]
    simp only [apply_loop, hnf, hro, Bool.false_eq_true, if_false, if_neg hmc]

/-- Counterexample to claim C5: the single-file branch of `chattr_cmd` does
not consult the retry policy and never loops.  With a write oracle that
fails on the first attempt and would succeed on the second, and a user who
always answers Retry, the behavior the claim describes
(`single_apply_spec`) retries and ends with the flags applied, while the
code (`chattr_cmd_enter` with marked ≤ 1) makes exactly one attempt and
ends with the flags not applied. -/
theorem single_apply_no_retry_counterexample :
    (chattr_cmd_enter 1 0 (fun k => k == 1) (fun _ => QueryResult.retry) false 5).map
        EnterOut.applied = some false ∧
    (single_apply_spec (fun k => k == 1) (fun _ => QueryResult.retry) 5 0).map
        EnterOut.applied = some true := by
  decide

/-- Claim C5 (amended): in SINGLE_FILE_APPLY (marked count ≤ 1) no read is
needed (the flags are known from dialog open) and exactly one `fsetflags`
call is made, with zero retry-policy prompts and no cancellation; the
flags are applied iff that single write succeeds, and on failure with
`ignore_all` unset a plain error message is shown instead of any retry
loop, after which the operation ends. -/
theorem chattr_single_write_once (marked v : Nat) (wr : Nat → Bool)
    (dec : Nat → QueryResult) (ia : Bool) (fuel : Nat) (h : marked ≤ 1) :
    chattr_cmd_enter marked v wr dec ia fuel =
      some ⟨1, 0, wr 0, !wr 0 && !ia, false⟩ := by
  simp [chattr_cmd_enter, h]

/-- Witness for C5 (amended): one marked file, a failing write, ignore-all
unset: one write, no prompt, not applied, message shown, not cancelled. -/
theorem chattr_single_write_once_witness :
    1 ≤ 1 ∧ chattr_cmd_enter 1 7 (fun _ => false) (fun _ => QueryResult.retry) false 3 =
      some ⟨1, 0, false, true, false⟩ :=
  ⟨le_refl 1, chattr_single_write_once 1 7 (fun _ => false) (fun _ => QueryResult.retry)
    false 3 (le_refl 1)⟩

/-- Witness for C1: two marked files with flags 1 and 2, masks
`(MASK32, 16)`; the second file's write carries 18 = (2 & MASK32) | 16,
its own freshly read flags transformed. -/
theorem chattr_batch_uses_fresh_flags_witness :
    chattr_apply_mask (fun _ _ => true) (fun _ _ => QueryResult.ignore) (fun _ => true)
        MASK32 16 4 [⟨true, 1⟩, ⟨true, 2⟩] 0 1 false =
      some ⟨[⟨false, 17⟩, ⟨false, 18⟩], 1, false,
        [Event.ewrite 0 17, Event.eread 1, Event.ewrite 1 18], false⟩ ∧
    (1 = 0 ∨ 18 = chattr_transform MASK32 16 (entry [⟨true, 1⟩, ⟨true, 2⟩] 1).flags) := by
  have h : chattr_apply_mask (fun _ _ => true) (fun _ _ => QueryResult.ignore)
      (fun _ => true) MASK32 16 4 [⟨true, 1⟩, ⟨true, 2⟩] 0 1 false =
      some ⟨[⟨false, 17⟩, ⟨false, 18⟩], 1, false,
        [Event.ewrite 0 17, Event.eread 1, Event.ewrite 1 18], false⟩ := by decide
  exact ⟨h, (chattr_batch_uses_fresh_flags _ _ _ _ _ _ _ _ _ _ _ h).1 1 18 (by decide)⟩

/-- Witness for C2: three marked files, the write on file 0 fails and the
user answers Cancel: the run aborts at file 0 and files 1 and 2 stay
marked and untouched. -/
theorem chattr_cancel_stops_batch_witness :
    chattr_apply_mask (fun _ _ => false) (fun _ _ => QueryResult.cancel) (fun _ => true)
        MASK32 16 4 [⟨true, 1⟩, ⟨true, 2⟩, ⟨true, 3⟩] 0 1 false =
      some ⟨[⟨false, 1⟩, ⟨true, 2⟩, ⟨true, 3⟩], 0, false,
        [Event.ewrite 0 17, Event.eprompt 0], true⟩ ∧
    (entry [⟨false, 1⟩, ⟨true, 2⟩, ⟨true, 3⟩] 1).marked = true ∧
    (entry [⟨false, 1⟩, ⟨true, 2⟩, ⟨true, 3⟩] 2).marked = true := by
  have h : chattr_apply_mask (fun _ _ => false) (fun _ _ => QueryResult.cancel)
      (fun _ => true) MASK32 16 4 [⟨true, 1⟩, ⟨true, 2⟩, ⟨true, 3⟩] 0 1 false =
      some ⟨[⟨false, 1⟩, ⟨true, 2⟩, ⟨true, 3⟩], 0, false,
        [Event.ewrite 0 17, Event.eprompt 0], true⟩ := by decide
  have hc := chattr_cancel_stops_batch _ _ _ _ _ _ _ _ _ _ _ h rfl
  exact ⟨h, hc.2.2 1 (by decide) (by decide), hc.2.2 2 (by decide) (by decide)⟩

/-- Witness for C3: one marked file whose read fails: it is unmarked, the
only event is the read, and the run ends DONE (not aborted). -/
theorem chattr_read_failure_skips_witness :
    next_file [⟨true, 7⟩] 0 = some 0 ∧
    apply_loop (fun _ _ => true) (fun _ _ => QueryResult.ignore) (fun _ => false)
        MASK32 16 3 [⟨true, 7⟩] 0 false =
      some ⟨[⟨false, 7⟩], 0, false, [Event.eread 0], false⟩ := by
  refine ⟨by decide, ?_⟩
  have h := chattr_read_failure_skips (fun _ _ => true) (fun _ _ => QueryResult.ignore)
    (fun _ => false) MASK32 16 2 [⟨true, 7⟩] 0 false 0 (by decide) rfl
  rw [h]
  decide

/-- Witness for C4: a batch entered with `ignore_all` already set, where
every write fails: both files are silently skipped and unmarked, no prompt
appears, the run ends DONE with `ignore_all` still set. -/
theorem chattr_ignore_all_silences_prompts_witness :
    (try_chattr (fun _ => false) (fun _ => QueryResult.cancel) 0 17 3 0 true =
      some ⟨true, true, false, [Event.ewrite 0 17]⟩) ∧
    chattr_apply_mask (fun _ _ => false) (fun _ _ => QueryResult.cancel) (fun _ => true)
        MASK32 16 4 [⟨true, 1⟩, ⟨true, 2⟩] 0 1 true =
      some ⟨[⟨false, 1⟩, ⟨false, 2⟩], 1, true,
        [Event.ewrite 0 17, Event.eread 1, Event.ewrite 1 18], false⟩ ∧
    Event.eprompt 0 ∉
      [Event.ewrite 0 17, Event.eread 1, Event.ewrite 1 18] := by
  have h : chattr_apply_mask (fun _ _ => false) (fun _ _ => QueryResult.cancel)
      (fun _ => true) MASK32 16 4 [⟨true, 1⟩, ⟨true, 2⟩] 0 1 true =
      some ⟨[⟨false, 1⟩, ⟨false, 2⟩], 1, true,
        [Event.ewrite 0 17, Event.eread 1, Event.ewrite 1 18], false⟩ := by decide
  have hp := chattr_ignore_all_silences_prompts.2 _ _ _ _ _ _ _ _ _ _ h
  exact ⟨chattr_ignore_all_silences_prompts.1 (fun _ => false)
      (fun _ => QueryResult.cancel) 0 17 2 0, h, hp.2.2 0⟩

/-- Witness for C10: the only write fails and the user cancels: the file is
unmarked anyway and its flags are untouched. -/
theorem do_chattr_always_unmarks_witness :
    (do_chattr (fun _ => false) (fun _ => QueryResult.cancel) MASK32 16
        [⟨true, 5⟩] 0 5 false 3 =
      some ⟨false, false, [⟨false, 5⟩], [Event.ewrite 0 21, Event.eprompt 0]⟩) ∧
    (entry [⟨false, 5⟩] 0).marked = false ∧
    (entry [⟨false, 5⟩] 0).flags = (entry [⟨true, 5⟩] 0).flags := by
  have h : do_chattr (fun _ => false) (fun _ => QueryResult.cancel) MASK32 16
      [⟨true, 5⟩] 0 5 false 3 =
      some ⟨false, false, [⟨false, 5⟩], [Event.ewrite 0 21, Event.eprompt 0]⟩ := by decide
  have hu := do_chattr_always_unmarks _ _ _ _ _ _ _ _ _ _ h
  exact ⟨h, hu.1, hu.2 rfl⟩
